import Mathlib

/-!
# Verification of the vitest_demo backend stores

Shallow embedding of the city/user store logic of the demo travel-list
backend (`backend/src/city.js`, `backend/src/user.js`, with numeric limits
from `backend/config/config.js` defaults), together with proofs of the
spec's testable properties.

Modelling conventions:
* The JSON city database `{[username]: City[], latest: City[] | null}` is a
  `CityDb`: an insertion-ordered association list of `username ↦ City[]`
  plus an optional `latest` snapshot (in the JS object, `latest` is one more
  key of the same object; usernames are email-validated and hence never the
  literal string "latest").
* JS `array.slice(-n)` is `lastN n`, `array.slice(0, n)` is `List.take n`.
* JS string truthiness: the only falsy strings/arrays/values reached here
  are the empty string, `undefined` keys and `null`/`undefined` `latest`;
  an empty array is truthy in JS and is modelled as an ordinary `[]` value.
* Each route handler (after its authentication guard) becomes a pure
  function `CityDb → args → Except CityError (CityDb × result)`; the
  handler writes the file only on success, so the persistent-state
  transition is the corresponding `...Step` function, which keeps the old
  database on error.
-/

set_option autoImplicit false

namespace VitestDemo

/-- Default `maxCitiesPerUser` from `config/config.js`. -/
def maxCitiesPerUser : Nat := 10

/-- Default `maxAttractionsPerCity` from `config/config.js`. -/
def maxAttractionsPerCity : Nat := 5

/-- Default `maxRestaurantsPerCity` from `config/config.js`. -/
def maxRestaurantsPerCity : Nat := 5

/-- A city record `{name, attractions, restaurants}` as stored in `data.json`;
a missing `attractions`/`restaurants` field (`city.attractions || []`) is
modelled as `[]`. -/
structure City where
  name : String
  attractions : List String
  restaurants : List String
deriving Repr, DecidableEq

/-- The city database object stored in `data.json`:
user keys in insertion order, plus the `latest` snapshot key. -/
structure CityDb where
  users : List (String × List City)
  latest : Option (List City)
deriving Repr, DecidableEq

/-- First-match association-list lookup, the JS `data[username]` read. -/
def lookupUser : List (String × List City) → String → Option (List City)
  | [], _ => none
  | (k, v) :: rest, u => if k = u then some v else lookupUser rest u

/-- `data[username]` on a `CityDb`. -/
def CityDb.find (db : CityDb) (u : String) : Option (List City) :=
  lookupUser db.users u

/-- `data[username] || []` (also the effect of `if (!data[username]) data[username] = []`). -/
def userCities (db : CityDb) (u : String) : List City :=
  (db.find u).getD []

/-- Assignment `data[username] = l`: replace the first entry with that key,
or append a fresh key at the end (JS object key insertion order). -/
def setUser : List (String × List City) → String → List City → List (String × List City)
  | [], u, l => [(u, l)]
  | (k, v) :: rest, u, l => if k = u then (u, l) :: rest else (k, v) :: setUser rest u l

/-- JS `array.slice(-n)` for `n > 0`: the last `min n (length)` elements. -/
def lastN {α : Type} (n : Nat) (l : List α) : List α :=
  l.drop (l.length - n)

/-- `data.latest` with JS falsiness of `null`/`undefined`: the `else if (data.latest)`
branch of `getUserCities` leaves `cities = []` when `latest` is absent. -/
def latestCities (db : CityDb) : List City :=
  db.latest.getD []

/-- The per-city read truncation of `getUserCities` (city.js lines 50-54):
`attractions`/`restaurants` are cut to their last 5 elements. -/
def truncateRead (c : City) : City :=
  { c with
    attractions := lastN maxAttractionsPerCity c.attractions
    restaurants := lastN maxRestaurantsPerCity c.restaurants }

/-- City selection of `getUserCities` (city.js lines 42-44):
`if (username && data[username]) cities = data[username]; else if (data.latest) ...`.
`username` is absent (guest) or the session string; the empty string is falsy. -/
def rawUserCities (db : CityDb) (username : Option String) : List City :=
  match username with
  | none => latestCities db
  | some u =>
    if u = "" then latestCities db
    else
      match db.find u with
      | some cs => cs
      | none => latestCities db

/-- `getUserCities` of city.js lines 40-56: select the user's list (or `latest`),
keep the last 10 cities, and truncate each city's lists to their last 5. -/
def getUserCities (db : CityDb) (username : Option String) : List City :=
  (lastN maxCitiesPerUser (rawUserCities db username)).map truncateRead

/-- Error responses of the city routes (each is an HTTP 400/404 with the
quoted message in city.js). -/
inductive CityError where
  /-- 400 `City name required` -/
  | cityNameRequired
  /-- 400 `City limit (10) reached` -/
  | cityLimitReached
  /-- 404 `No cities found` -/
  | noCitiesForUser
  /-- 404 `City not found` -/
  | cityNotFound
  /-- 400 `Attraction required` -/
  | attractionRequired
  /-- 400 `Attraction limit (5) reached` -/
  | attractionLimitReached
  /-- 400 `Restaurant required` -/
  | restaurantRequired
  /-- 400 `Restaurant limit (5) reached` -/
  | restaurantLimitReached
deriving Repr, DecidableEq

/-- `data[username][idx] = city` after `idx = findIndex(c => c.name === city.name)`:
replace the first city with the given name, `none` when no name matches. -/
def replaceFirstByName : List City → City → Option (List City)
  | [], _ => none
  | c :: rest, city =>
    if c.name = city.name then some (city :: rest)
    else (replaceFirstByName rest city).map (c :: ·)

/-- The write-time truncation of `router.post('/')` (city.js lines 93-94):
incoming lists are cut to their first 5 elements. -/
def truncateWrite (c : City) : City :=
  { c with
    attractions := c.attractions.take maxAttractionsPerCity
    restaurants := c.restaurants.take maxRestaurantsPerCity }

/-- `router.post('/')` of city.js lines 78-103, after the auth guard:
add or update a city for `username`. Returns the new database and the
stored city, or the error response. -/
def addOrUpdateCity (db : CityDb) (username : String) (city : City) :
    Except CityError (CityDb × City) :=
  if city.name = "" then .error .cityNameRequired
  else
    let list := userCities db username
    let stored := truncateWrite city
    match replaceFirstByName list stored with
    | some newList =>
      .ok ({ users := setUser db.users username newList, latest := some newList }, stored)
    | none =>
      if list.length ≥ maxCitiesPerUser then .error .cityLimitReached
      else
        let newList := list ++ [stored]
        .ok ({ users := setUser db.users username newList, latest := some newList }, stored)

/-- `router.delete('/:cityName')` of city.js lines 112-122, after the auth
guard: 404 when the user key is absent (`!data[username]`; an empty stored
array is truthy), else filter out every city with the given name. -/
def deleteCity (db : CityDb) (username cityName : String) :
    Except CityError CityDb :=
  match db.find username with
  | none => .error .noCitiesForUser
  | some cs =>
    let newList := cs.filter (fun c => c.name ≠ cityName)
    .ok { users := setUser db.users username newList, latest := some newList }

/-- Update the first city named `name` through `f` (the JS
`find(c => c.name === cityName)` followed by in-place mutation of the found
object); `CityNotFound` when no city matches. -/
def modifyCity : List City → String → (City → Except CityError City) →
    Except CityError (List City × City)
  | [], _, _ => .error .cityNotFound
  | c :: rest, name, f =>
    if c.name = name then (f c).map (fun c' => (c' :: rest, c'))
    else (modifyCity rest name f).map (fun p => (c :: p.1, p.2))

/-- Body of `router.post('/:cityName/attractions')` on the found city
(city.js lines 141-147): limit check first, then case-sensitive dedupe push. -/
def pushAttraction (attraction : String) (c : City) : Except CityError City :=
  if c.attractions.length ≥ maxAttractionsPerCity then .error .attractionLimitReached
  else if attraction ∈ c.attractions then .ok c
  else .ok { c with attractions := c.attractions ++ [attraction] }

/-- `router.post('/:cityName/attractions')` of city.js lines 132-151, after
the auth guard. -/
def addAttraction (db : CityDb) (username cityName attraction : String) :
    Except CityError (CityDb × City) :=
  if attraction = "" then .error .attractionRequired
  else
    match modifyCity (userCities db username) cityName (pushAttraction attraction) with
    | .error e => .error e
    | .ok (newList, c) =>
      .ok ({ users := setUser db.users username newList, latest := some newList }, c)

/-- Body of `router.delete('/:cityName/attractions/:attraction')` on the
found city (city.js line 167): remove every exact match. -/
def removeAttraction (attraction : String) (c : City) : Except CityError City :=
  .ok { c with attractions := c.attractions.filter (fun a => a ≠ attraction) }

/-- `router.delete('/:cityName/attractions/:attraction')` of city.js lines
160-171, after the auth guard. -/
def deleteAttraction (db : CityDb) (username cityName attraction : String) :
    Except CityError (CityDb × City) :=
  match modifyCity (userCities db username) cityName (removeAttraction attraction) with
  | .error e => .error e
  | .ok (newList, c) =>
    .ok ({ users := setUser db.users username newList, latest := some newList }, c)

/-- Body of `router.post('/:cityName/restaurants')` on the found city
(city.js lines 190-196), symmetric to `pushAttraction`. -/
def pushRestaurant (restaurant : String) (c : City) : Except CityError City :=
  if c.restaurants.length ≥ maxRestaurantsPerCity then .error .restaurantLimitReached
  else if restaurant ∈ c.restaurants then .ok c
  else .ok { c with restaurants := c.restaurants ++ [restaurant] }

/-- `router.post('/:cityName/restaurants')` of city.js lines 181-200, after
the auth guard. -/
def addRestaurant (db : CityDb) (username cityName restaurant : String) :
    Except CityError (CityDb × City) :=
  if restaurant = "" then .error .restaurantRequired
  else
    match modifyCity (userCities db username) cityName (pushRestaurant restaurant) with
    | .error e => .error e
    | .ok (newList, c) =>
      .ok ({ users := setUser db.users username newList, latest := some newList }, c)

/-- Body of `router.delete('/:cityName/restaurants/:restaurant')` on the
found city (city.js line 216). -/
def removeRestaurant (restaurant : String) (c : City) : Except CityError City :=
  .ok { c with restaurants := c.restaurants.filter (fun r => r ≠ restaurant) }

/-- `router.delete('/:cityName/restaurants/:restaurant')` of city.js lines
209-220, after the auth guard. -/
def deleteRestaurant (db : CityDb) (username cityName restaurant : String) :
    Except CityError (CityDb × City) :=
  match modifyCity (userCities db username) cityName (removeRestaurant restaurant) with
  | .error e => .error e
  | .ok (newList, c) =>
    .ok ({ users := setUser db.users username newList, latest := some newList }, c)

/-- Persistent-state transition of a city route: the handler calls
`writeData` only on the success path, so an error leaves the stored
database unchanged. -/
def runStep {α : Type} (db : CityDb) (r : Except CityError (CityDb × α)) :
    CityDb × Except CityError α :=
  match r with
  | .ok (db', a) => (db', .ok a)
  | .error e => (db, .error e)

/-- State transition of `router.post('/')`. -/
def addOrUpdateCityStep (db : CityDb) (username : String) (city : City) :
    CityDb × Except CityError City :=
  runStep db (addOrUpdateCity db username city)

/-- State transition of `router.delete('/:cityName')`. -/
def deleteCityStep (db : CityDb) (username cityName : String) :
    CityDb × Except CityError Unit :=
  match deleteCity db username cityName with
  | .ok db' => (db', .ok ())
  | .error e => (db, .error e)

/-- State transition of `router.post('/:cityName/attractions')`. -/
def addAttractionStep (db : CityDb) (username cityName attraction : String) :
    CityDb × Except CityError City :=
  runStep db (addAttraction db username cityName attraction)

/-- State transition of `router.delete('/:cityName/attractions/:attraction')`. -/
def deleteAttractionStep (db : CityDb) (username cityName attraction : String) :
    CityDb × Except CityError City :=
  runStep db (deleteAttraction db username cityName attraction)

/-- State transition of `router.post('/:cityName/restaurants')`. -/
def addRestaurantStep (db : CityDb) (username cityName restaurant : String) :
    CityDb × Except CityError City :=
  runStep db (addRestaurant db username cityName restaurant)

/-- State transition of `router.delete('/:cityName/restaurants/:restaurant')`. -/
def deleteRestaurantStep (db : CityDb) (username cityName restaurant : String) :
    CityDb × Except CityError City :=
  runStep db (deleteRestaurant db username cityName restaurant)

/-! ## User store (`backend/src/user.js`) -/

/-- A record of `users.json`: `{username, password}` (plaintext, demo app). -/
structure User where
  username : String
  password : String
deriving Repr, DecidableEq

/-- The ECMAScript `\s` character class used by the email regex: WhiteSpace
(TAB U+0009, VT U+000B, FF U+000C, SP U+0020, NBSP U+00A0, ZWNBSP U+FEFF,
and the Unicode space separators U+1680, U+2000..U+200A, U+202F, U+205F,
U+3000) together with LineTerminator (LF U+000A, CR U+000D, LS U+2028,
PS U+2029). -/
def jsWhitespace (c : Char) : Bool :=
  let n := c.toNat
  n == 0x09 || n == 0x0A || n == 0x0B || n == 0x0C || n == 0x0D || n == 0x20 ||
    n == 0xA0 || n == 0x1680 || (decide (0x2000 ≤ n) && decide (n ≤ 0x200A)) ||
    n == 0x2028 || n == 0x2029 || n == 0x202F || n == 0x205F || n == 0x3000 ||
    n == 0xFEFF

/-- Interior dot: the tail `[^@\s]+\.[^@\s]+` of the email regex needs a `.`
that has at least one character before it and one after it within the part
after the `@` (the surrounding character classes themselves admit dots). -/
def hasInteriorDot (cs : List Char) : Bool :=
  ((cs.drop 1).dropLast).contains '.'

/-- `isValidEmail` of user.js line 37: the regex `^[^@\s]+@[^@\s]+\.[^@\s]+$`
matches exactly the strings with no `\s` character, exactly one `@` that is
not the first character, and a dot strictly inside the part after the `@`. -/
def isValidEmail (s : String) : Bool :=
  let cs := s.toList
  let pre := cs.takeWhile (fun c => c ≠ '@')
  match cs.dropWhile (fun c => c ≠ '@') with
  | '@' :: rest =>
    cs.all (fun c => !jsWhitespace c) && ¬ pre.isEmpty &&
      rest.all (fun c => c ≠ '@') && hasInteriorDot rest
  | _ => false

/-- Error responses of the user routes. -/
inductive UserError where
  /-- 400 `Username and password required` -/
  | missingFields
  /-- 400 `A valid email is required` -/
  | invalidEmail
  /-- 409 `User already exists` -/
  | userExists
  /-- 401 `Invalid credentials` -/
  | invalidCredentials
deriving Repr, DecidableEq

/-- The spec's error taxonomy (§7) sorts the two HTTP-400 responses of the
user routes under `ValidationError`. -/
def UserError.isValidationError : UserError → Bool
  | .missingFields => true
  | .invalidEmail => true
  | .userExists => false
  | .invalidCredentials => false

/-- `router.post('/register')` of user.js lines 50-62: missing-field check,
email check, duplicate check, then append and persist. Returns the new user
array on success. -/
def register (users : List User) (username password : String) :
    Except UserError (List User) :=
  if username = "" ∨ password = "" then .error .missingFields
  else if ¬ isValidEmail username then .error .invalidEmail
  else if users.any (fun u => u.username = username) then .error .userExists
  else .ok (users ++ [⟨username, password⟩])

/-- `router.post('/login')` of user.js lines 73-81: email check, then exact
username+password match. -/
def login (users : List User) (username password : String) :
    Except UserError String :=
  if ¬ isValidEmail username then .error .invalidEmail
  else if users.any (fun u => u.username = username ∧ u.password = password) then
    .ok username
  else .error .invalidCredentials

/-- Persistent-state transition of `/register`: `writeUsers` runs only on
the success path, so an error leaves `users.json` unchanged. -/
def registerStep (users : List User) (username password : String) :
    List User × Except UserError String :=
  match register users username password with
  | .ok users' => (users', .ok username)
  | .error e => (users, .error e)

/-! ## Persistence (`readData`/`writeData` of city.js, JSON round trip)

`writeData` is `JSON.stringify` of the database object and `readData` is
`JSON.parse` of the file; `stringify` and `parse` are mutually inverse on
plain JSON values, so the file content is modelled at the JSON-value level. -/

/-- Plain JSON values as produced by `JSON.stringify` of the city database. -/
inductive Json where
  | null : Json
  | str : String → Json
  | arr : List Json → Json
  | obj : List (String × Json) → Json
deriving Repr

/-- Serialize one city object. -/
def encodeCity (c : City) : Json :=
  .obj [("name", .str c.name),
        ("attractions", .arr (c.attractions.map .str)),
        ("restaurants", .arr (c.restaurants.map .str))]

/-- Serialize a city array. -/
def encodeCityList (cs : List City) : Json :=
  .arr (cs.map encodeCity)

/-- `writeData` of city.js lines 30-33: `JSON.stringify(data)` writes the
user keys in insertion order followed by the `latest` key (`null` when the
snapshot is absent). -/
def writeData (db : CityDb) : Json :=
  .obj (db.users.map (fun p => (p.1, encodeCityList p.2)) ++
        [("latest", match db.latest with | some l => encodeCityList l | none => .null)])

/-- Parse a JSON array of strings. -/
def decodeStrings : List Json → Option (List String)
  | [] => some []
  | .str s :: rest => (decodeStrings rest).map (fun l => s :: l)
  | _ => none

/-- Parse one city object (the shape `writeData` emits). -/
def decodeCity : Json → Option City
  | .obj [("name", .str n), ("attractions", .arr as), ("restaurants", .arr rs)] =>
    match decodeStrings as, decodeStrings rs with
    | some as', some rs' => some ⟨n, as', rs'⟩
    | _, _ => none
  | _ => none

/-- Parse a list of city objects. -/
def decodeCities : List Json → Option (List City)
  | [] => some []
  | j :: rest =>
    match decodeCity j, decodeCities rest with
    | some c, some cs => some (c :: cs)
    | _, _ => none

/-- Parse a JSON city array. -/
def decodeCityList : Json → Option (List City)
  | .arr l => decodeCities l
  | _ => none

/-- Parse the entries of the database object: every key before the final
`latest` key is a user entry (`writeData` always emits `latest` once, last). -/
def decodeEntries : List (String × Json) → Option CityDb
  | [] => none
  | (k, v) :: rest =>
    if k = "latest" then
      match rest with
      | [] =>
        match v with
        | .null => some ⟨[], none⟩
        | _ => (decodeCityList v).map (fun l => ⟨[], some l⟩)
      | _ :: _ => none
    else
      match decodeCityList v, decodeEntries rest with
      | some cs, some db => some ⟨(k, cs) :: db.users, db.latest⟩
      | _, _ => none

/-- `readData` of city.js lines 19-23 on an existing file: `JSON.parse` of
the stored JSON value back into the database. -/
def readData : Json → Option CityDb
  | .obj entries => decodeEntries entries
  | _ => none

/-! ## The at-rest invariant (spec §3) -/

/-- Per-city limits: at most 5 attractions and 5 restaurants at rest. -/
def cityWithinLimits (c : City) : Prop :=
  c.attractions.length ≤ maxAttractionsPerCity ∧
  c.restaurants.length ≤ maxRestaurantsPerCity

instance (c : City) : Decidable (cityWithinLimits c) := by
  unfold cityWithinLimits; infer_instance

/-- The at-rest database invariant: every stored user list has at most 10
cities, each within the per-city limits. -/
def dbInvariant (db : CityDb) : Prop :=
  ∀ p ∈ db.users, p.2.length ≤ maxCitiesPerUser ∧ ∀ c ∈ p.2, cityWithinLimits c

instance (db : CityDb) : Decidable (dbInvariant db) := by
  unfold dbInvariant; infer_instance

/-! ## Concrete example data (used to instantiate the theorems) -/

/-- City named `City<i>` with empty lists. -/
def exCity (i : Nat) : City := ⟨"City" ++ toString i, [], []⟩

/-- Fifteen cities `City0..City14` in insertion order. -/
def exCities15 : List City := (List.range 15).map exCity

/-- An email-shaped username. -/
def exUser : String := "alice@example.com"

/-- Database in which `exUser` stores `City0..City14`. -/
def exDb15 : CityDb := ⟨[(exUser, exCities15)], none⟩

/-- A city with 7 attractions `A0..A6`. -/
def exCity7 : City := ⟨"Vienna", ["A0", "A1", "A2", "A3", "A4", "A5", "A6"], []⟩

/-- A small city with one attraction and one restaurant. -/
def exParis : City := ⟨"Paris", ["Louvre"], ["Bistro"]⟩

/-- Database in which `exUser` stores just `exParis`. -/
def exDb1 : CityDb := ⟨[(exUser, [exParis])], some [exParis]⟩

/-- A fresh city with empty lists. -/
def exRome : City := ⟨"Rome", [], []⟩

/-- Database in which `exUser` stores ten cities `City0..City9` (at the limit). -/
def exDbFull : CityDb := ⟨[(exUser, (List.range 10).map exCity)], none⟩

/-- A city already holding 5 attractions and 5 restaurants. -/
def exFullCity : City :=
  ⟨"Oslo", ["A1", "A2", "A3", "A4", "A5"], ["R1", "R2", "R3", "R4", "R5"]⟩

/-- Database in which `exUser` stores `exFullCity`. -/
def exDbFullCity : CityDb := ⟨[(exUser, [exFullCity])], some [exFullCity]⟩

/-- A city submitted with 7 attractions and 6 restaurants (exceeding the write cap). -/
def exBigCity : City :=
  ⟨"Lisbon", ["A0", "A1", "A2", "A3", "A4", "A5", "A6"], ["R0", "R1", "R2", "R3", "R4", "R5"]⟩

/-- The empty database: no user entries, no `latest` snapshot. -/
def exEmptyDb : CityDb := ⟨[], none⟩

/-- `exBigCity` after the write-time cap: first 5 attractions and restaurants. -/
def exBigStored : City :=
  ⟨"Lisbon", ["A0", "A1", "A2", "A3", "A4"], ["R0", "R1", "R2", "R3", "R4"]⟩

/-- The database after storing `exBigCity` into the empty database. -/
def exDbAfterBig : CityDb := ⟨[(exUser, [exBigStored])], some [exBigStored]⟩

/-- Database with no entry for any user but a nonempty `latest` snapshot. -/
def exDbLatestOnly : CityDb := ⟨[], some [exParis]⟩

/-- `exDb1` after appending `exRome` for `exUser`. -/
def exDbAfterRome : CityDb := ⟨[(exUser, [exParis, exRome])], some [exParis, exRome]⟩

/-- `exDb1` after deleting `Paris` for `exUser`. -/
def exDbAfterDeleteParis : CityDb := ⟨[(exUser, [])], some []⟩

/-- `exParis` with the attraction `Eiffel` appended. -/
def exParisEiffel : City := ⟨"Paris", ["Louvre", "Eiffel"], ["Bistro"]⟩

/-- `exDb1` after adding the attraction `Eiffel` to `Paris`. -/
def exDbAfterEiffel : CityDb := ⟨[(exUser, [exParisEiffel])], some [exParisEiffel]⟩

/-- `exParis` with the attraction `Louvre` removed. -/
def exParisNoLouvre : City := ⟨"Paris", [], ["Bistro"]⟩

/-- `exDb1` after deleting the attraction `Louvre` from `Paris`. -/
def exDbAfterDelLouvre : CityDb := ⟨[(exUser, [exParisNoLouvre])], some [exParisNoLouvre]⟩

/-- `exParis` with the restaurant `Cafe` appended. -/
def exParisCafe : City := ⟨"Paris", ["Louvre"], ["Bistro", "Cafe"]⟩

/-- `exDb1` after adding the restaurant `Cafe` to `Paris`. -/
def exDbAfterCafe : CityDb := ⟨[(exUser, [exParisCafe])], some [exParisCafe]⟩

/-- `exParis` with the restaurant `Bistro` removed. -/
def exParisNoBistro : City := ⟨"Paris", ["Louvre"], []⟩

/-- `exDb1` after deleting the restaurant `Bistro` from `Paris`. -/
def exDbAfterDelBistro : CityDb := ⟨[(exUser, [exParisNoBistro])], some [exParisNoBistro]⟩

/-! ## Helper lemmas -/

theorem lookupUser_mem {us : List (String × List City)} {u : String} {cs : List City}
    (h : lookupUser us u = some cs) : (u, cs) ∈ us := by
  induction us with
  | nil => simp [lookupUser] at h
  | cons p rest ih =>
    obtain ⟨k, v⟩ := p
    by_cases hk : k = u
    · subst hk
      simp [lookupUser] at h
      subst h
      exact List.mem_cons_self _ _
    · simp [lookupUser, hk] at h
      exact List.mem_cons_of_mem _ (ih h)

theorem lookupUser_setUser (us : List (String × List City)) (u : String) (l : List City) :
    lookupUser (setUser us u l) u = some l := by
  induction us with
  | nil => simp [setUser, lookupUser]
  | cons p rest ih =>
    obtain ⟨k, v⟩ := p
    by_cases hk : k = u
    · simp [setUser, hk, lookupUser]
    · simp [setUser, hk, lookupUser, ih]

theorem mem_setUser {us : List (String × List City)} {u : String} {l : List City}
    {p : String × List City} (h : p ∈ setUser us u l) : p ∈ us ∨ p = (u, l) := by
  induction us with
  | nil => simp [setUser] at h; right; exact h
  | cons q rest ih =>
    obtain ⟨k, v⟩ := q
    by_cases hk : k = u
    · simp [setUser, hk] at h
      rcases h with h | h
      · right; exact h
      · left; exact List.mem_cons_of_mem _ h
    · simp [setUser, hk] at h
      rcases h with h | h
      · left; simp [h]
      · rcases ih h with h' | h'
        · left; exact List.mem_cons_of_mem _ h'
        · right; exact h'

theorem replaceFirstByName_cons_eq {c : City} {rest : List City} {city : City}
    (hc : c.name = city.name) :
    replaceFirstByName (c :: rest) city = some (city :: rest) := by
  simp [replaceFirstByName, hc]

theorem replaceFirstByName_cons_ne {c : City} {rest : List City} {city : City}
    (hc : c.name ≠ city.name) :
    replaceFirstByName (c :: rest) city =
      (replaceFirstByName rest city).map (fun l => c :: l) := by
  simp [replaceFirstByName, hc]

theorem replaceFirstByName_eq_none {l : List City} {city : City}
    (h : ∀ c ∈ l, c.name ≠ city.name) : replaceFirstByName l city = none := by
  induction l with
  | nil => rfl
  | cons c rest ih =>
    rw [replaceFirstByName_cons_ne (h c (List.mem_cons_self _ _)),
      ih fun x hx => h x (List.mem_cons_of_mem _ hx)]
    rfl

theorem replaceFirstByName_spec {l l' : List City} {city : City}
    (h : replaceFirstByName l city = some l') :
    ∃ pre old post, l = pre ++ old :: post ∧ old.name = city.name ∧
      (∀ c ∈ pre, c.name ≠ city.name) ∧ l' = pre ++ city :: post := by
  induction l generalizing l' with
  | nil => simp [replaceFirstByName] at h
  | cons c rest ih =>
    by_cases hc : c.name = city.name
    · rw [replaceFirstByName_cons_eq hc] at h
      injection h with h
      exact ⟨[], c, rest, rfl, hc, by simp, h.symm⟩
    · rw [replaceFirstByName_cons_ne hc] at h
      match hm : replaceFirstByName rest city with
      | none => rw [hm] at h; exact absurd h (by simp)
      | some l'' =>
        rw [hm] at h
        injection h with h
        obtain ⟨pre, old, post, h1, h2, h3, h4⟩ := ih hm
        refine ⟨c :: pre, old, post, by rw [h1]; rfl, h2, ?_, by rw [← h, h4]; rfl⟩
        intro x hx
        rcases List.mem_cons.mp hx with hx | hx
        · subst hx; exact hc
        · exact h3 x hx

theorem replaceFirstByName_append (pre : List City) (old : City) (post : List City)
    (city : City) (hpre : ∀ c ∈ pre, c.name ≠ city.name) (hold : old.name = city.name) :
    replaceFirstByName (pre ++ old :: post) city = some (pre ++ city :: post) := by
  induction pre with
  | nil => exact replaceFirstByName_cons_eq hold
  | cons c rest ih =>
    rw [List.cons_append, replaceFirstByName_cons_ne (hpre c (List.mem_cons_self _ _)),
      ih fun x hx => hpre x (List.mem_cons_of_mem _ hx)]
    rfl

theorem modifyCity_cons_eq {c : City} {rest : List City} {name : String}
    {f : City → Except CityError City} (hc : c.name = name) :
    modifyCity (c :: rest) name f = (f c).map (fun c' => (c' :: rest, c')) := by
  simp [modifyCity, hc]

theorem modifyCity_cons_ne {c : City} {rest : List City} {name : String}
    {f : City → Except CityError City} (hc : c.name ≠ name) :
    modifyCity (c :: rest) name f =
      (modifyCity rest name f).map (fun p => (c :: p.1, p.2)) := by
  simp [modifyCity, hc]

theorem modifyCity_eq_notFound {l : List City} {name : String}
    {f : City → Except CityError City} (h : ∀ c ∈ l, c.name ≠ name) :
    modifyCity l name f = .error .cityNotFound := by
  induction l with
  | nil => rfl
  | cons c rest ih =>
    rw [modifyCity_cons_ne (h c (List.mem_cons_self _ _)),
      ih fun x hx => h x (List.mem_cons_of_mem _ hx)]
    rfl

theorem modifyCity_spec {l l' : List City} {name : String}
    {f : City → Except CityError City} {c' : City}
    (h : modifyCity l name f = .ok (l', c')) :
    ∃ pre old post, l = pre ++ old :: post ∧ old.name = name ∧
      (∀ c ∈ pre, c.name ≠ name) ∧ f old = .ok c' ∧ l' = pre ++ c' :: post := by
  induction l generalizing l' with
  | nil => simp [modifyCity] at h
  | cons c rest ih =>
    by_cases hc : c.name = name
    · rw [modifyCity_cons_eq hc] at h
      match hf : f c with
      | .error e => rw [hf] at h; exact absurd h (by simp [Except.map])
      | .ok c'' =>
        rw [hf] at h
        simp only [Except.map] at h
        injection h with h
        cases h
        exact ⟨[], c, rest, rfl, hc, by simp, hf, rfl⟩
    · rw [modifyCity_cons_ne hc] at h
      match hm : modifyCity rest name f with
      | .error e => rw [hm] at h; exact absurd h (by simp [Except.map])
      | .ok p =>
        rw [hm] at h
        simp only [Except.map] at h
        injection h with h
        cases h
        obtain ⟨pre, old, post, g1, g2, g3, g4, g5⟩ := ih hm
        refine ⟨c :: pre, old, post, by rw [g1]; rfl, g2, ?_, g4, by rw [g5]; rfl⟩
        intro x hx
        rcases List.mem_cons.mp hx with hx | hx
        · subst hx; exact hc
        · exact g3 x hx

theorem modifyCity_found (pre : List City) (old : City) (post : List City)
    (name : String) (f : City → Except CityError City)
    (hpre : ∀ c ∈ pre, c.name ≠ name) (hold : old.name = name) :
    modifyCity (pre ++ old :: post) name f =
      (f old).map (fun c' => (pre ++ c' :: post, c')) := by
  induction pre with
  | nil => exact modifyCity_cons_eq hold
  | cons c rest ih =>
    rw [List.cons_append, modifyCity_cons_ne (hpre c (List.mem_cons_self _ _)),
      ih fun x hx => hpre x (List.mem_cons_of_mem _ hx)]
    cases f old <;> rfl

theorem userCities_bounds {db : CityDb} {u : String} (hdb : dbInvariant db) :
    (userCities db u).length ≤ maxCitiesPerUser ∧
      ∀ c ∈ userCities db u, cityWithinLimits c := by
  unfold userCities
  match h : db.find u with
  | none => simp
  | some cs =>
    have := hdb (u, cs) (lookupUser_mem h)
    simpa using this

theorem dbInvariant_setUser {db : CityDb} {u : String} {l : List City}
    {lat : Option (List City)} (hdb : dbInvariant db)
    (hlen : l.length ≤ maxCitiesPerUser) (hok : ∀ c ∈ l, cityWithinLimits c) :
    dbInvariant ⟨setUser db.users u l, lat⟩ := by
  intro p hp
  rcases mem_setUser hp with hp | hp
  · exact hdb p hp
  · subst hp; exact ⟨hlen, hok⟩

theorem cityWithinLimits_truncateWrite (c : City) :
    cityWithinLimits (truncateWrite c) := by
  constructor
  · simp [truncateWrite]
  · simp [truncateWrite]

theorem truncateWrite_name (c : City) : (truncateWrite c).name = c.name := rfl

theorem addOrUpdateCity_ok {db : CityDb} {u : String} {c : City} {db' : CityDb} {c' : City}
    (h : addOrUpdateCity db u c = .ok (db', c')) :
    c' = truncateWrite c ∧ ∃ newList,
      db' = ⟨setUser db.users u newList, some newList⟩ ∧
      ((∃ pre old post, userCities db u = pre ++ old :: post ∧ old.name = c.name ∧
          (∀ x ∈ pre, x.name ≠ c.name) ∧ newList = pre ++ truncateWrite c :: post) ∨
       ((userCities db u).length < maxCitiesPerUser ∧
          newList = userCities db u ++ [truncateWrite c])) := by
  by_cases hname : c.name = ""
  · simp [addOrUpdateCity, hname] at h
  · simp only [addOrUpdateCity, if_neg hname] at h
    match hm : replaceFirstByName (userCities db u) (truncateWrite c) with
    | some newList =>
      rw [hm] at h
      injection h with h
      cases h
      obtain ⟨pre, old, post, h1, h2, h3, h4⟩ := replaceFirstByName_spec hm
      rw [truncateWrite_name] at h2 h3
      exact ⟨rfl, newList, rfl, .inl ⟨pre, old, post, h1, h2, h3, h4⟩⟩
    | none =>
      rw [hm] at h
      by_cases hlen : (userCities db u).length ≥ maxCitiesPerUser
      · rw [if_pos hlen] at h; exact absurd h (by simp)
      · rw [if_neg hlen] at h
        injection h with h
        cases h
        exact ⟨rfl, _, rfl, .inr ⟨by omega, rfl⟩⟩

theorem deleteCity_ok {db : CityDb} {u n : String} {db' : CityDb}
    (h : deleteCity db u n = .ok db') :
    ∃ cs, db.find u = some cs ∧
      db' = ⟨setUser db.users u (cs.filter (fun c => c.name ≠ n)),
             some (cs.filter (fun c => c.name ≠ n))⟩ := by
  unfold deleteCity at h
  match hf : db.find u with
  | none => rw [hf] at h; exact absurd h (by simp)
  | some cs =>
    rw [hf] at h
    injection h with h
    cases h
    exact ⟨cs, rfl, rfl⟩

theorem addAttraction_ok {db : CityDb} {u n a : String} {db' : CityDb} {c' : City}
    (h : addAttraction db u n a = .ok (db', c')) :
    ∃ newList, modifyCity (userCities db u) n (pushAttraction a) = .ok (newList, c') ∧
      db' = ⟨setUser db.users u newList, some newList⟩ := by
  unfold addAttraction at h
  by_cases ha : a = ""
  · simp [ha] at h
  · rw [if_neg ha] at h
    match hm : modifyCity (userCities db u) n (pushAttraction a) with
    | .error e => rw [hm] at h; exact absurd h (by simp)
    | .ok (newList, c'') =>
      rw [hm] at h
      injection h with h
      cases h
      exact ⟨newList, rfl, rfl⟩

theorem deleteAttraction_ok {db : CityDb} {u n a : String} {db' : CityDb} {c' : City}
    (h : deleteAttraction db u n a = .ok (db', c')) :
    ∃ newList, modifyCity (userCities db u) n (removeAttraction a) = .ok (newList, c') ∧
      db' = ⟨setUser db.users u newList, some newList⟩ := by
  unfold deleteAttraction at h
  match hm : modifyCity (userCities db u) n (removeAttraction a) with
  | .error e => rw [hm] at h; exact absurd h (by simp)
  | .ok (newList, c'') =>
    rw [hm] at h
    injection h with h
    cases h
    exact ⟨newList, rfl, rfl⟩

theorem addRestaurant_ok {db : CityDb} {u n r : String} {db' : CityDb} {c' : City}
    (h : addRestaurant db u n r = .ok (db', c')) :
    ∃ newList, modifyCity (userCities db u) n (pushRestaurant r) = .ok (newList, c') ∧
      db' = ⟨setUser db.users u newList, some newList⟩ := by
  unfold addRestaurant at h
  by_cases hr : r = ""
  · simp [hr] at h
  · rw [if_neg hr] at h
    match hm : modifyCity (userCities db u) n (pushRestaurant r) with
    | .error e => rw [hm] at h; exact absurd h (by simp)
    | .ok (newList, c'') =>
      rw [hm] at h
      injection h with h
      cases h
      exact ⟨newList, rfl, rfl⟩

theorem deleteRestaurant_ok {db : CityDb} {u n r : String} {db' : CityDb} {c' : City}
    (h : deleteRestaurant db u n r = .ok (db', c')) :
    ∃ newList, modifyCity (userCities db u) n (removeRestaurant r) = .ok (newList, c') ∧
      db' = ⟨setUser db.users u newList, some newList⟩ := by
  unfold deleteRestaurant at h
  match hm : modifyCity (userCities db u) n (removeRestaurant r) with
  | .error e => rw [hm] at h; exact absurd h (by simp)
  | .ok (newList, c'') =>
    rw [hm] at h
    injection h with h
    cases h
    exact ⟨newList, rfl, rfl⟩

theorem pushAttraction_ok_cases {a : String} {c c' : City}
    (h : pushAttraction a c = .ok c') :
    c.attractions.length < maxAttractionsPerCity ∧ c'.restaurants = c.restaurants ∧
      c'.name = c.name ∧
      ((a ∈ c.attractions ∧ c' = c) ∨
       (a ∉ c.attractions ∧ c'.attractions = c.attractions ++ [a])) := by
  unfold pushAttraction at h
  by_cases hlen : c.attractions.length ≥ maxAttractionsPerCity
  · rw [if_pos hlen] at h; exact absurd h (by simp)
  · rw [if_neg hlen] at h
    by_cases hmem : a ∈ c.attractions
    · rw [if_pos hmem] at h
      injection h with h
      cases h
      exact ⟨by omega, rfl, rfl, .inl ⟨hmem, rfl⟩⟩
    · rw [if_neg hmem] at h
      injection h with h
      cases h
      exact ⟨by omega, rfl, rfl, .inr ⟨hmem, rfl⟩⟩

theorem pushRestaurant_ok_cases {r : String} {c c' : City}
    (h : pushRestaurant r c = .ok c') :
    c.restaurants.length < maxRestaurantsPerCity ∧ c'.attractions = c.attractions ∧
      c'.name = c.name ∧
      ((r ∈ c.restaurants ∧ c' = c) ∨
       (r ∉ c.restaurants ∧ c'.restaurants = c.restaurants ++ [r])) := by
  unfold pushRestaurant at h
  by_cases hlen : c.restaurants.length ≥ maxRestaurantsPerCity
  · rw [if_pos hlen] at h; exact absurd h (by simp)
  · rw [if_neg hlen] at h
    by_cases hmem : r ∈ c.restaurants
    · rw [if_pos hmem] at h
      injection h with h
      cases h
      exact ⟨by omega, rfl, rfl, .inl ⟨hmem, rfl⟩⟩
    · rw [if_neg hmem] at h
      injection h with h
      cases h
      exact ⟨by omega, rfl, rfl, .inr ⟨hmem, rfl⟩⟩

theorem pushAttraction_withinLimits {a : String} {c c' : City}
    (h : pushAttraction a c = .ok c') (hc : cityWithinLimits c) :
    cityWithinLimits c' := by
  obtain ⟨hlt, hres, _, hcases⟩ := pushAttraction_ok_cases h
  rcases hcases with ⟨_, rfl⟩ | ⟨_, hatt⟩
  · exact hc
  · exact ⟨by rw [hatt]; simp; omega, by rw [hres]; exact hc.2⟩

theorem pushRestaurant_withinLimits {r : String} {c c' : City}
    (h : pushRestaurant r c = .ok c') (hc : cityWithinLimits c) :
    cityWithinLimits c' := by
  obtain ⟨hlt, hatt, _, hcases⟩ := pushRestaurant_ok_cases h
  rcases hcases with ⟨_, rfl⟩ | ⟨_, hres⟩
  · exact hc
  · exact ⟨by rw [hatt]; exact hc.1, by rw [hres]; simp; omega⟩

theorem removeAttraction_withinLimits {a : String} {c c' : City}
    (h : removeAttraction a c = .ok c') (hc : cityWithinLimits c) :
    cityWithinLimits c' := by
  unfold removeAttraction at h
  injection h with h
  cases h
  exact ⟨le_trans (List.length_filter_le _ _) hc.1, hc.2⟩

theorem removeRestaurant_withinLimits {r : String} {c c' : City}
    (h : removeRestaurant r c = .ok c') (hc : cityWithinLimits c) :
    cityWithinLimits c' := by
  unfold removeRestaurant at h
  injection h with h
  cases h
  exact ⟨hc.1, le_trans (List.length_filter_le _ _) hc.2⟩

theorem dbInvariant_modifyStep {db : CityDb} {u n : String}
    {f : City → Except CityError City} {newList : List City} {c' : City}
    (hdb : dbInvariant db)
    (hf : ∀ c c'', cityWithinLimits c → f c = .ok c'' → cityWithinLimits c'')
    (h : modifyCity (userCities db u) n f = .ok (newList, c')) :
    dbInvariant ⟨setUser db.users u newList, some newList⟩ := by
  obtain ⟨pre, old, post, h1, h2, h3, h4, h5⟩ := modifyCity_spec h
  obtain ⟨hlen, hmem⟩ := userCities_bounds (u := u) hdb
  subst h5
  apply dbInvariant_setUser hdb
  · rw [h1] at hlen
    simp only [List.length_append, List.length_cons] at hlen ⊢
    omega
  · intro x hx
    rcases List.mem_append.mp hx with hx | hx
    · exact hmem x (by rw [h1]; exact List.mem_append_left _ hx)
    · rcases List.mem_cons.mp hx with hx | hx
      · subst hx
        exact hf old _
          (hmem old (by rw [h1]; exact List.mem_append_right _ (List.mem_cons_self _ _))) h4
      · exact hmem x (by rw [h1]; exact List.mem_append_right _ (List.mem_cons_of_mem _ hx))

theorem register_ok {users users' : List User} {u p : String}
    (h : register users u p = .ok users') :
    ¬(u = "" ∨ p = "") ∧ isValidEmail u = true ∧
      users.any (fun x => x.username = u) = false ∧ users' = users ++ [⟨u, p⟩] := by
  unfold register at h
  by_cases hup : u = "" ∨ p = ""
  · rw [if_pos hup] at h; exact absurd h (by simp)
  · rw [if_neg hup] at h
    by_cases hv : isValidEmail u = true
    · rw [if_neg (by simp [hv])] at h
      by_cases hex : users.any (fun x => x.username = u) = true
      · rw [if_pos hex] at h; exact absurd h (by simp)
      · rw [if_neg hex] at h
        injection h with h
        exact ⟨hup, hv, by simpa using hex, h.symm⟩
    · rw [if_pos (by simpa using hv)] at h; exact absurd h (by simp)

theorem decodeStrings_encode (l : List String) :
    decodeStrings (l.map Json.str) = some l := by
  induction l with
  | nil => rfl
  | cons s rest ih => simp [decodeStrings, ih]

theorem decodeCity_encode (c : City) : decodeCity (encodeCity c) = some c := by
  obtain ⟨n, as, rs⟩ := c
  simp [encodeCity, decodeCity, decodeStrings_encode]

theorem decodeCities_encode (cs : List City) :
    decodeCities (cs.map encodeCity) = some cs := by
  induction cs with
  | nil => rfl
  | cons c rest ih => simp [decodeCities, decodeCity_encode, ih]

theorem decodeCityList_encode (cs : List City) :
    decodeCityList (encodeCityList cs) = some cs := by
  simp [encodeCityList, decodeCityList, decodeCities_encode]

theorem decodeEntries_encode (users : List (String × List City))
    (latest : Option (List City)) (h : "latest" ∉ users.map Prod.fst) :
    decodeEntries (users.map (fun p => (p.1, encodeCityList p.2)) ++
      [("latest", match latest with | some l => encodeCityList l | none => .null)]) =
      some ⟨users, latest⟩ := by
  induction users with
  | nil =>
    cases latest with
    | none => rfl
    | some l => simp [decodeEntries, encodeCityList, decodeCities_encode, decodeCityList]
  | cons q rest ih =>
    simp only [List.map_cons, List.mem_cons] at h
    push_neg at h
    simp only [List.map_cons, List.cons_append, decodeEntries, if_neg (Ne.symm h.1)]
    rw [decodeCityList_encode, List.append_eq, ih h.2]

/-! ## Claim theorems -/

/-- **C1**: `listCities` returns, for a present username, that user's list
truncated to its last 10 entries in original insertion order (City0..City14
yields City5..City14), for a guest the `latest` snapshot under the same
truncation, and in every returned city the attractions and restaurants are
truncated to their last 5 elements (A0..A6 displays as [A2,A3,A4,A5,A6]). -/
theorem C1_listCities_read_rules :
    (∀ db u cs, u ≠ "" → CityDb.find db u = some cs →
       getUserCities db (some u) = (lastN maxCitiesPerUser cs).map truncateRead) ∧
    (∀ db, getUserCities db none =
       (lastN maxCitiesPerUser (latestCities db)).map truncateRead) ∧
    getUserCities exDb15 (some exUser) = (List.range 10).map (fun i => exCity (5 + i)) ∧
    truncateRead exCity7 = ⟨"Vienna", ["A2", "A3", "A4", "A5", "A6"], []⟩ := by
  refine ⟨?_, ?_, ?_, ?_⟩
  · intro db u cs hu hfind
    simp [getUserCities, rawUserCities, hu, hfind]
  · intro db
    rfl
  · rfl
  · rfl

/-- Witness for C1: the general read rule applied to the concrete 15-city
database. -/
theorem C1_witness :
    getUserCities exDb15 (some exUser) =
      (lastN maxCitiesPerUser exCities15).map truncateRead :=
  C1_listCities_read_rules.1 exDb15 exUser exCities15 (by decide) (by rfl)

/-- **C2**: every successfully stored city carries the first 5 elements of
the incoming attractions and restaurants arrays (front-truncation at write
time), and that city is what ends up in the user's stored list. -/
theorem C2_write_front_truncation (db : CityDb) (u : String) (c : City)
    (db' : CityDb) (c' : City) (h : addOrUpdateCity db u c = .ok (db', c')) :
    c'.attractions = c.attractions.take maxAttractionsPerCity ∧
    c'.restaurants = c.restaurants.take maxRestaurantsPerCity ∧
    ∃ cs, db'.find u = some cs ∧ c' ∈ cs := by
  obtain ⟨hc', newList, hdb', hshape⟩ := addOrUpdateCity_ok h
  subst hc'
  subst hdb'
  refine ⟨rfl, rfl, newList, lookupUser_setUser _ _ _, ?_⟩
  rcases hshape with ⟨pre, old, post, h1, h2, h3, h4⟩ | ⟨hlt, h4⟩
  · subst h4
    exact List.mem_append_right _ (List.mem_cons_self _ _)
  · subst h4
    exact List.mem_append_right _ (List.mem_cons_self _ _)

/-- Witness for C2: storing a city submitted with 7 attractions and 6
restaurants keeps exactly the first 5 of each. -/
theorem C2_witness :
    exBigStored.attractions = exBigCity.attractions.take maxAttractionsPerCity ∧
    exBigStored.restaurants = exBigCity.restaurants.take maxRestaurantsPerCity ∧
    ∃ cs, exDbAfterBig.find exUser = some cs ∧ exBigStored ∈ cs :=
  C2_write_front_truncation exEmptyDb exUser exBigCity exDbAfterBig exBigStored (by rfl)

/-- **C3**: `addOrUpdateCity` requires a non-empty name; a city whose name is
already present is replaced in place (same position, no limit check); a new
name is appended when the list has fewer than 10 entries (length becomes
N+1) and rejected with `CityLimitReached` when the list already has 10. -/
theorem C3_addOrUpdateCity_rules :
    (∀ db u c, c.name = "" → addOrUpdateCity db u c = .error .cityNameRequired) ∧
    (∀ db u c pre old post, c.name ≠ "" →
       userCities db u = pre ++ old :: post → old.name = c.name →
       (∀ x ∈ pre, x.name ≠ c.name) →
       addOrUpdateCity db u c =
         .ok (⟨setUser db.users u (pre ++ truncateWrite c :: post),
               some (pre ++ truncateWrite c :: post)⟩, truncateWrite c)) ∧
    (∀ db u c, c.name ≠ "" → (∀ x ∈ userCities db u, x.name ≠ c.name) →
       ((userCities db u).length < maxCitiesPerUser →
          addOrUpdateCity db u c =
            .ok (⟨setUser db.users u (userCities db u ++ [truncateWrite c]),
                  some (userCities db u ++ [truncateWrite c])⟩, truncateWrite c) ∧
          (userCities db u ++ [truncateWrite c]).length = (userCities db u).length + 1) ∧
       ((userCities db u).length = maxCitiesPerUser →
          addOrUpdateCity db u c = .error .cityLimitReached)) := by
  refine ⟨?_, ?_, ?_⟩
  · intro db u c hname
    simp [addOrUpdateCity, hname]
  · intro db u c pre old post hname hdecomp hold hpre
    simp only [addOrUpdateCity, if_neg hname]
    rw [hdecomp, replaceFirstByName_append pre old post (truncateWrite c)
      (fun x hx => by rw [truncateWrite_name]; exact hpre x hx)
      (by rw [truncateWrite_name]; exact hold)]
  · intro db u c hname hnodup
    have hnone : replaceFirstByName (userCities db u) (truncateWrite c) = none :=
      replaceFirstByName_eq_none
        (fun x hx => by rw [truncateWrite_name]; exact hnodup x hx)
    constructor
    · intro hlt
      constructor
      · simp only [addOrUpdateCity, if_neg hname]
        rw [hnone, if_neg (by omega)]
      · simp
    · intro heq
      simp only [addOrUpdateCity, if_neg hname]
      rw [hnone, if_pos (by omega)]

/-- Witness for C3: the empty-name rejection, an in-place replacement of
`Paris`, a successful append at one city, and the rejection at ten cities. -/
theorem C3_witness :
    addOrUpdateCity exDb1 exUser ⟨"", [], []⟩ = .error .cityNameRequired ∧
    addOrUpdateCity exDb1 exUser ⟨"Paris", ["New"], []⟩ =
      .ok (⟨setUser exDb1.users exUser
              ([] ++ truncateWrite ⟨"Paris", ["New"], []⟩ :: []),
            some ([] ++ truncateWrite ⟨"Paris", ["New"], []⟩ :: [])⟩,
           truncateWrite ⟨"Paris", ["New"], []⟩) ∧
    addOrUpdateCity exDb1 exUser exRome =
      .ok (⟨setUser exDb1.users exUser (userCities exDb1 exUser ++ [truncateWrite exRome]),
            some (userCities exDb1 exUser ++ [truncateWrite exRome])⟩,
           truncateWrite exRome) ∧
    addOrUpdateCity exDbFull exUser exRome = .error .cityLimitReached :=
  ⟨C3_addOrUpdateCity_rules.1 exDb1 exUser ⟨"", [], []⟩ rfl,
   C3_addOrUpdateCity_rules.2.1 exDb1 exUser ⟨"Paris", ["New"], []⟩ [] exParis []
     (by decide) (by rfl) (by rfl) (by simp),
   ((C3_addOrUpdateCity_rules.2.2 exDb1 exUser exRome (by decide) (by decide)).1
     (by decide)).1,
   (C3_addOrUpdateCity_rules.2.2 exDbFull exUser exRome (by decide) (by decide)).2
     (by decide)⟩

/-- **C5**: `deleteCity` fails with `NoCitiesForUser` exactly when the user
has no stored list; when a list exists (even empty or with no matching
entry) it removes every city with the given name, updates `latest`, and
succeeds. -/
theorem C5_deleteCity_rules :
    (∀ db u n, db.find u = none → deleteCity db u n = .error .noCitiesForUser) ∧
    (∀ db u n cs, db.find u = some cs →
       deleteCity db u n =
         .ok ⟨setUser db.users u (cs.filter (fun c => c.name ≠ n)),
              some (cs.filter (fun c => c.name ≠ n))⟩) := by
  constructor
  · intro db u n h
    unfold deleteCity
    rw [h]
  · intro db u n cs h
    unfold deleteCity
    rw [h]

/-- Witness for C5: deleting from a user with no list fails, while deleting a
non-existent city from a user with a list succeeds as a no-op. -/
theorem C5_witness :
    deleteCity exDb1 "bob@example.com" "Paris" = .error .noCitiesForUser ∧
    deleteCity exDb1 exUser "Nowhere" =
      .ok ⟨setUser exDb1.users exUser ([exParis].filter (fun c => c.name ≠ "Nowhere")),
           some ([exParis].filter (fun c => c.name ≠ "Nowhere"))⟩ :=
  ⟨C5_deleteCity_rules.1 exDb1 "bob@example.com" "Paris" (by rfl),
   C5_deleteCity_rules.2 exDb1 exUser "Nowhere" [exParis] (by rfl)⟩

/-- **C4**: `addAttraction` fails with `CityNotFound` when the city is absent
from the user's list; fails with `AttractionLimitReached` when the city
already has 5 attractions, leaving the stored database unchanged; on a
duplicate (case-sensitive exact match) it silently no-ops without error,
still updating `latest` and persisting; otherwise it appends the attraction
and updates `latest`. The restaurant operation is symmetric. -/
theorem C4_addAttraction_rules :
    (∀ db u n a, a ≠ "" → (∀ x ∈ userCities db u, x.name ≠ n) →
       addAttractionStep db u n a = (db, .error .cityNotFound)) ∧
    (∀ db u n a pre city post, a ≠ "" →
       userCities db u = pre ++ city :: post → (∀ x ∈ pre, x.name ≠ n) →
       city.name = n → maxAttractionsPerCity ≤ city.attractions.length →
       addAttractionStep db u n a = (db, .error .attractionLimitReached)) ∧
    (∀ db u n a pre city post, a ≠ "" →
       userCities db u = pre ++ city :: post → (∀ x ∈ pre, x.name ≠ n) →
       city.name = n → city.attractions.length < maxAttractionsPerCity →
       a ∈ city.attractions →
       addAttraction db u n a =
         .ok (⟨setUser db.users u (pre ++ city :: post),
               some (pre ++ city :: post)⟩, city)) ∧
    (∀ db u n a pre city post, a ≠ "" →
       userCities db u = pre ++ city :: post → (∀ x ∈ pre, x.name ≠ n) →
       city.name = n → city.attractions.length < maxAttractionsPerCity →
       a ∉ city.attractions →
       addAttraction db u n a =
         .ok (⟨setUser db.users u
                 (pre ++ { city with attractions := city.attractions ++ [a] } :: post),
               some (pre ++ { city with attractions := city.attractions ++ [a] } :: post)⟩,
              { city with attractions := city.attractions ++ [a] })) ∧
    (∀ db u n r, r ≠ "" → (∀ x ∈ userCities db u, x.name ≠ n) →
       addRestaurantStep db u n r = (db, .error .cityNotFound)) ∧
    (∀ db u n r pre city post, r ≠ "" →
       userCities db u = pre ++ city :: post → (∀ x ∈ pre, x.name ≠ n) →
       city.name = n → maxRestaurantsPerCity ≤ city.restaurants.length →
       addRestaurantStep db u n r = (db, .error .restaurantLimitReached)) ∧
    (∀ db u n r pre city post, r ≠ "" →
       userCities db u = pre ++ city :: post → (∀ x ∈ pre, x.name ≠ n) →
       city.name = n → city.restaurants.length < maxRestaurantsPerCity →
       r ∈ city.restaurants →
       addRestaurant db u n r =
         .ok (⟨setUser db.users u (pre ++ city :: post),
               some (pre ++ city :: post)⟩, city)) ∧
    (∀ db u n r pre city post, r ≠ "" →
       userCities db u = pre ++ city :: post → (∀ x ∈ pre, x.name ≠ n) →
       city.name = n → city.restaurants.length < maxRestaurantsPerCity →
       r ∉ city.restaurants →
       addRestaurant db u n r =
         .ok (⟨setUser db.users u
                 (pre ++ { city with restaurants := city.restaurants ++ [r] } :: post),
               some (pre ++ { city with restaurants := city.restaurants ++ [r] } :: post)⟩,
              { city with restaurants := city.restaurants ++ [r] })) := by
  refine ⟨?_, ?_, ?_, ?_, ?_, ?_, ?_, ?_⟩
  · intro db u n a ha hn
    have h : addAttraction db u n a = .error .cityNotFound := by
      unfold addAttraction
      rw [if_neg ha, modifyCity_eq_notFound hn]
    simp [addAttractionStep, runStep, h]
  · intro db u n a pre city post ha hdecomp hpre hname hfull
    have hpush : pushAttraction a city = .error .attractionLimitReached := by
      unfold pushAttraction
      rw [if_pos (by omega)]
    have h : addAttraction db u n a = .error .attractionLimitReached := by
      unfold addAttraction
      rw [if_neg ha, hdecomp, modifyCity_found pre city post n _ hpre hname, hpush]
      rfl
    simp [addAttractionStep, runStep, h]
  · intro db u n a pre city post ha hdecomp hpre hname hroom hdup
    have hpush : pushAttraction a city = .ok city := by
      unfold pushAttraction
      rw [if_neg (by omega), if_pos hdup]
    unfold addAttraction
    rw [if_neg ha, hdecomp, modifyCity_found pre city post n _ hpre hname, hpush]
    rfl
  · intro db u n a pre city post ha hdecomp hpre hname hroom hnew
    have hpush : pushAttraction a city =
        .ok { city with attractions := city.attractions ++ [a] } := by
      unfold pushAttraction
      rw [if_neg (by omega), if_neg hnew]
    unfold addAttraction
    rw [if_neg ha, hdecomp, modifyCity_found pre city post n _ hpre hname, hpush]
    rfl
  · intro db u n r hr hn
    have h : addRestaurant db u n r = .error .cityNotFound := by
      unfold addRestaurant
      rw [if_neg hr, modifyCity_eq_notFound hn]
    simp [addRestaurantStep, runStep, h]
  · intro db u n r pre city post hr hdecomp hpre hname hfull
    have hpush : pushRestaurant r city = .error .restaurantLimitReached := by
      unfold pushRestaurant
      rw [if_pos (by omega)]
    have h : addRestaurant db u n r = .error .restaurantLimitReached := by
      unfold addRestaurant
      rw [if_neg hr, hdecomp, modifyCity_found pre city post n _ hpre hname, hpush]
      rfl
    simp [addRestaurantStep, runStep, h]
  · intro db u n r pre city post hr hdecomp hpre hname hroom hdup
    have hpush : pushRestaurant r city = .ok city := by
      unfold pushRestaurant
      rw [if_neg (by omega), if_pos hdup]
    unfold addRestaurant
    rw [if_neg hr, hdecomp, modifyCity_found pre city post n _ hpre hname, hpush]
    rfl
  · intro db u n r pre city post hr hdecomp hpre hname hroom hnew
    have hpush : pushRestaurant r city =
        .ok { city with restaurants := city.restaurants ++ [r] } := by
      unfold pushRestaurant
      rw [if_neg (by omega), if_neg hnew]
    unfold addRestaurant
    rw [if_neg hr, hdecomp, modifyCity_found pre city post n _ hpre hname, hpush]
    rfl

/-- Witness for C4: the four attraction cases and the four restaurant cases
at concrete databases. -/
theorem C4_witness :
    addAttractionStep exDb1 exUser "Rome" "Eiffel" = (exDb1, .error .cityNotFound) ∧
    addAttractionStep exDbFullCity exUser "Oslo" "A6" =
      (exDbFullCity, .error .attractionLimitReached) ∧
    addAttraction exDb1 exUser "Paris" "Louvre" =
      .ok (⟨setUser exDb1.users exUser ([] ++ exParis :: []),
            some ([] ++ exParis :: [])⟩, exParis) ∧
    addAttraction exDb1 exUser "Paris" "Eiffel" =
      .ok (⟨setUser exDb1.users exUser
              ([] ++ { exParis with attractions := exParis.attractions ++ ["Eiffel"] } :: []),
            some ([] ++ { exParis with attractions := exParis.attractions ++ ["Eiffel"] } :: [])⟩,
           { exParis with attractions := exParis.attractions ++ ["Eiffel"] }) ∧
    addRestaurantStep exDb1 exUser "Rome" "Cafe" = (exDb1, .error .cityNotFound) ∧
    addRestaurantStep exDbFullCity exUser "Oslo" "R6" =
      (exDbFullCity, .error .restaurantLimitReached) ∧
    addRestaurant exDb1 exUser "Paris" "Bistro" =
      .ok (⟨setUser exDb1.users exUser ([] ++ exParis :: []),
            some ([] ++ exParis :: [])⟩, exParis) ∧
    addRestaurant exDb1 exUser "Paris" "Cafe" =
      .ok (⟨setUser exDb1.users exUser
              ([] ++ { exParis with restaurants := exParis.restaurants ++ ["Cafe"] } :: []),
            some ([] ++ { exParis with restaurants := exParis.restaurants ++ ["Cafe"] } :: [])⟩,
           { exParis with restaurants := exParis.restaurants ++ ["Cafe"] }) :=
  ⟨C4_addAttraction_rules.1 exDb1 exUser "Rome" "Eiffel" (by decide) (by decide),
   C4_addAttraction_rules.2.1 exDbFullCity exUser "Oslo" "A6" [] exFullCity []
     (by decide) (by rfl) (by simp) (by rfl) (by decide),
   C4_addAttraction_rules.2.2.1 exDb1 exUser "Paris" "Louvre" [] exParis []
     (by decide) (by rfl) (by simp) (by rfl) (by decide) (by decide),
   C4_addAttraction_rules.2.2.2.1 exDb1 exUser "Paris" "Eiffel" [] exParis []
     (by decide) (by rfl) (by simp) (by rfl) (by decide) (by decide),
   C4_addAttraction_rules.2.2.2.2.1 exDb1 exUser "Rome" "Cafe" (by decide) (by decide),
   C4_addAttraction_rules.2.2.2.2.2.1 exDbFullCity exUser "Oslo" "R6" [] exFullCity []
     (by decide) (by rfl) (by simp) (by rfl) (by decide),
   C4_addAttraction_rules.2.2.2.2.2.2.1 exDb1 exUser "Paris" "Bistro" [] exParis []
     (by decide) (by rfl) (by simp) (by rfl) (by decide) (by decide),
   C4_addAttraction_rules.2.2.2.2.2.2.2 exDb1 exUser "Paris" "Cafe" [] exParis []
     (by decide) (by rfl) (by simp) (by rfl) (by decide) (by decide)⟩

/-- **C6**: any username failing the email pattern makes both `register` and
`login` fail with a `ValidationError` (HTTP 400) regardless of the password;
and a second registration with the same username and password fails with
`Conflict` (`User already exists`) while leaving the user store unchanged. -/
theorem C6_register_login_rules :
    (∀ users u p, isValidEmail u = false →
       (∃ e, register users u p = .error e ∧ e.isValidationError = true) ∧
       (∃ e, login users u p = .error e ∧ e.isValidationError = true)) ∧
    (∀ users users' u p, register users u p = .ok users' →
       registerStep users' u p = (users', .error .userExists)) := by
  constructor
  · intro users u p h
    constructor
    · by_cases hup : u = "" ∨ p = ""
      · exact ⟨.missingFields, by simp [register, hup], rfl⟩
      · exact ⟨.invalidEmail, by simp [register, hup, h], rfl⟩
    · exact ⟨.invalidEmail, by simp [login, h], rfl⟩
  · intro users users' u p h
    obtain ⟨hup, hv, hex, husers'⟩ := register_ok h
    have hany : users'.any (fun x => x.username = u) = true := by
      subst husers'; simp
    unfold registerStep register
    rw [if_neg hup, if_neg (by simp [hv]), if_pos hany]

/-- Witness for C6: the non-email username `bob` is rejected by both routes,
and registering `alice@example.com` twice yields `User already exists` on
the second call with the store unchanged. -/
theorem C6_witness :
    ((∃ e, register [] "bob" "pw" = .error e ∧ e.isValidationError = true) ∧
     (∃ e, login [] "bob" "pw" = .error e ∧ e.isValidationError = true)) ∧
    registerStep [⟨exUser, "pw"⟩] exUser "pw" =
      ([⟨exUser, "pw"⟩], .error .userExists) :=
  ⟨C6_register_login_rules.1 [] "bob" "pw" (by decide),
   C6_register_login_rules.2 [] [⟨exUser, "pw"⟩] exUser "pw" (by rfl)⟩

/-- **C7**: assuming the at-rest invariant (each stored list has at most 10
cities, each city at most 5 attractions and 5 restaurants), every city-store
operation — add/update city, delete city, add/delete attraction, add/delete
restaurant — preserves it, on both success and error paths. -/
theorem C7_invariant_preserved (db : CityDb) (hdb : dbInvariant db) :
    (∀ u c, dbInvariant (addOrUpdateCityStep db u c).1) ∧
    (∀ u n, dbInvariant (deleteCityStep db u n).1) ∧
    (∀ u n a, dbInvariant (addAttractionStep db u n a).1) ∧
    (∀ u n a, dbInvariant (deleteAttractionStep db u n a).1) ∧
    (∀ u n r, dbInvariant (addRestaurantStep db u n r).1) ∧
    (∀ u n r, dbInvariant (deleteRestaurantStep db u n r).1) := by
  refine ⟨?_, ?_, ?_, ?_, ?_, ?_⟩
  · intro u c
    rcases h : addOrUpdateCity db u c with e | ⟨db', c'⟩
    · simpa [addOrUpdateCityStep, runStep, h] using hdb
    · obtain ⟨hc', newList, hdb', hshape⟩ := addOrUpdateCity_ok h
      have hstep : (addOrUpdateCityStep db u c).1 = db' := by
        simp [addOrUpdateCityStep, runStep, h]
      rw [hstep, hdb']
      obtain ⟨hlen, hmem⟩ := userCities_bounds (u := u) hdb
      rcases hshape with ⟨pre, old, post, h1, h2, h3, h4⟩ | ⟨hlt, h4⟩
      · subst h4
        apply dbInvariant_setUser hdb
        · rw [h1] at hlen
          simp only [List.length_append, List.length_cons] at hlen ⊢
          omega
        · intro x hx
          rcases List.mem_append.mp hx with hx | hx
          · exact hmem x (by rw [h1]; exact List.mem_append_left _ hx)
          · rcases List.mem_cons.mp hx with hx | hx
            · subst hx; exact cityWithinLimits_truncateWrite c
            · exact hmem x
                (by rw [h1]; exact List.mem_append_right _ (List.mem_cons_of_mem _ hx))
      · subst h4
        apply dbInvariant_setUser hdb
        · simp only [List.length_append, List.length_cons, List.length_nil]
          omega
        · intro x hx
          rcases List.mem_append.mp hx with hx | hx
          · exact hmem x hx
          · rcases List.mem_cons.mp hx with hx | hx
            · subst hx; exact cityWithinLimits_truncateWrite c
            · simp at hx
  · intro u n
    rcases h : deleteCity db u n with e | db'
    · simpa [deleteCityStep, h] using hdb
    · obtain ⟨cs, hfind, hdb'⟩ := deleteCity_ok h
      have hstep : (deleteCityStep db u n).1 = db' := by simp [deleteCityStep, h]
      rw [hstep, hdb']
      have hcs := hdb (u, cs) (lookupUser_mem hfind)
      apply dbInvariant_setUser hdb
      · exact le_trans (List.length_filter_le _ _) hcs.1
      · intro x hx
        exact hcs.2 x (List.mem_of_mem_filter hx)
  · intro u n a
    rcases h : addAttraction db u n a with e | ⟨db', c'⟩
    · simpa [addAttractionStep, runStep, h] using hdb
    · obtain ⟨newList, hm, hdb'⟩ := addAttraction_ok h
      have hstep : (addAttractionStep db u n a).1 = db' := by
        simp [addAttractionStep, runStep, h]
      rw [hstep, hdb']
      exact dbInvariant_modifyStep hdb
        (fun c c'' hc hfc => pushAttraction_withinLimits hfc hc) hm
  · intro u n a
    rcases h : deleteAttraction db u n a with e | ⟨db', c'⟩
    · simpa [deleteAttractionStep, runStep, h] using hdb
    · obtain ⟨newList, hm, hdb'⟩ := deleteAttraction_ok h
      have hstep : (deleteAttractionStep db u n a).1 = db' := by
        simp [deleteAttractionStep, runStep, h]
      rw [hstep, hdb']
      exact dbInvariant_modifyStep hdb
        (fun c c'' hc hfc => removeAttraction_withinLimits hfc hc) hm
  · intro u n r
    rcases h : addRestaurant db u n r with e | ⟨db', c'⟩
    · simpa [addRestaurantStep, runStep, h] using hdb
    · obtain ⟨newList, hm, hdb'⟩ := addRestaurant_ok h
      have hstep : (addRestaurantStep db u n r).1 = db' := by
        simp [addRestaurantStep, runStep, h]
      rw [hstep, hdb']
      exact dbInvariant_modifyStep hdb
        (fun c c'' hc hfc => pushRestaurant_withinLimits hfc hc) hm
  · intro u n r
    rcases h : deleteRestaurant db u n r with e | ⟨db', c'⟩
    · simpa [deleteRestaurantStep, runStep, h] using hdb
    · obtain ⟨newList, hm, hdb'⟩ := deleteRestaurant_ok h
      have hstep : (deleteRestaurantStep db u n r).1 = db' := by
        simp [deleteRestaurantStep, runStep, h]
      rw [hstep, hdb']
      exact dbInvariant_modifyStep hdb
        (fun c c'' hc hfc => removeRestaurant_withinLimits hfc hc) hm

/-- Witness for C7: the six operations applied to a concrete database that
satisfies the invariant. -/
theorem C7_witness :
    dbInvariant (addOrUpdateCityStep exDb1 exUser exRome).1 ∧
    dbInvariant (deleteCityStep exDb1 exUser "Paris").1 ∧
    dbInvariant (addAttractionStep exDb1 exUser "Paris" "Eiffel").1 ∧
    dbInvariant (deleteAttractionStep exDb1 exUser "Paris" "Louvre").1 ∧
    dbInvariant (addRestaurantStep exDb1 exUser "Paris" "Cafe").1 ∧
    dbInvariant (deleteRestaurantStep exDb1 exUser "Paris" "Bistro").1 :=
  ⟨(C7_invariant_preserved exDb1 (by decide)).1 exUser exRome,
   (C7_invariant_preserved exDb1 (by decide)).2.1 exUser "Paris",
   (C7_invariant_preserved exDb1 (by decide)).2.2.1 exUser "Paris" "Eiffel",
   (C7_invariant_preserved exDb1 (by decide)).2.2.2.1 exUser "Paris" "Louvre",
   (C7_invariant_preserved exDb1 (by decide)).2.2.2.2.1 exUser "Paris" "Cafe",
   (C7_invariant_preserved exDb1 (by decide)).2.2.2.2.2 exUser "Paris" "Bistro"⟩

/-- **C8**: after every successful mutating operation performed by user `u`,
the persisted `latest` snapshot equals `u`'s full stored city list. -/
theorem C8_latest_equals_mutated_list (db : CityDb) :
    (∀ u c db' city, addOrUpdateCity db u c = .ok (db', city) →
       ∃ l, db'.latest = some l ∧ db'.find u = some l) ∧
    (∀ u n db', deleteCity db u n = .ok db' →
       ∃ l, db'.latest = some l ∧ db'.find u = some l) ∧
    (∀ u n a db' city, addAttraction db u n a = .ok (db', city) →
       ∃ l, db'.latest = some l ∧ db'.find u = some l) ∧
    (∀ u n a db' city, deleteAttraction db u n a = .ok (db', city) →
       ∃ l, db'.latest = some l ∧ db'.find u = some l) ∧
    (∀ u n r db' city, addRestaurant db u n r = .ok (db', city) →
       ∃ l, db'.latest = some l ∧ db'.find u = some l) ∧
    (∀ u n r db' city, deleteRestaurant db u n r = .ok (db', city) →
       ∃ l, db'.latest = some l ∧ db'.find u = some l) := by
  refine ⟨?_, ?_, ?_, ?_, ?_, ?_⟩
  · intro u c db' city h
    obtain ⟨-, newList, hdb', -⟩ := addOrUpdateCity_ok h
    subst hdb'
    exact ⟨newList, rfl, lookupUser_setUser _ _ _⟩
  · intro u n db' h
    obtain ⟨cs, -, hdb'⟩ := deleteCity_ok h
    subst hdb'
    exact ⟨_, rfl, lookupUser_setUser _ _ _⟩
  · intro u n a db' city h
    obtain ⟨newList, -, hdb'⟩ := addAttraction_ok h
    subst hdb'
    exact ⟨newList, rfl, lookupUser_setUser _ _ _⟩
  · intro u n a db' city h
    obtain ⟨newList, -, hdb'⟩ := deleteAttraction_ok h
    subst hdb'
    exact ⟨newList, rfl, lookupUser_setUser _ _ _⟩
  · intro u n r db' city h
    obtain ⟨newList, -, hdb'⟩ := addRestaurant_ok h
    subst hdb'
    exact ⟨newList, rfl, lookupUser_setUser _ _ _⟩
  · intro u n r db' city h
    obtain ⟨newList, -, hdb'⟩ := deleteRestaurant_ok h
    subst hdb'
    exact ⟨newList, rfl, lookupUser_setUser _ _ _⟩

/-- Witness for C8: the six mutating operations on `exDb1` each leave
`latest` equal to `exUser`'s stored list. -/
theorem C8_witness :
    (∃ l, exDbAfterRome.latest = some l ∧ exDbAfterRome.find exUser = some l) ∧
    (∃ l, exDbAfterDeleteParis.latest = some l ∧
       exDbAfterDeleteParis.find exUser = some l) ∧
    (∃ l, exDbAfterEiffel.latest = some l ∧ exDbAfterEiffel.find exUser = some l) ∧
    (∃ l, exDbAfterDelLouvre.latest = some l ∧ exDbAfterDelLouvre.find exUser = some l) ∧
    (∃ l, exDbAfterCafe.latest = some l ∧ exDbAfterCafe.find exUser = some l) ∧
    (∃ l, exDbAfterDelBistro.latest = some l ∧ exDbAfterDelBistro.find exUser = some l) :=
  ⟨(C8_latest_equals_mutated_list exDb1).1 exUser exRome exDbAfterRome exRome (by rfl),
   (C8_latest_equals_mutated_list exDb1).2.1 exUser "Paris" exDbAfterDeleteParis (by rfl),
   (C8_latest_equals_mutated_list exDb1).2.2.1 exUser "Paris" "Eiffel"
     exDbAfterEiffel exParisEiffel (by rfl),
   (C8_latest_equals_mutated_list exDb1).2.2.2.1 exUser "Paris" "Louvre"
     exDbAfterDelLouvre exParisNoLouvre (by rfl),
   (C8_latest_equals_mutated_list exDb1).2.2.2.2.1 exUser "Paris" "Cafe"
     exDbAfterCafe exParisCafe (by rfl),
   (C8_latest_equals_mutated_list exDb1).2.2.2.2.2 exUser "Paris" "Bistro"
     exDbAfterDelBistro exParisNoBistro (by rfl)⟩

/-- **C9**: writing a city database to the data file and re-reading it (a
restart) recovers the database exactly, so `listCities` answers identically
before and after the restart for every username. The hypothesis states that
no user key is the literal string `latest` (always true of stored databases,
whose user keys are email-validated). -/
theorem C9_roundtrip (db : CityDb) (h : "latest" ∉ db.users.map Prod.fst) :
    readData (writeData db) = some db ∧
    ∀ u db', readData (writeData db) = some db' →
      getUserCities db' u = getUserCities db u := by
  have hrt : readData (writeData db) = some db := by
    obtain ⟨users, latest⟩ := db
    exact decodeEntries_encode users latest h
  refine ⟨hrt, fun u db' h' => ?_⟩
  rw [hrt] at h'
  injection h' with h'
  rw [h']

/-- Witness for C9: the concrete database `exDb1` survives the round trip. -/
theorem C9_witness : readData (writeData exDb1) = some exDb1 :=
  (C9_roundtrip exDb1 (by decide)).1

/-- **C10** (amended): for an authenticated username with no entry in the
stored database, `listCities` returns exactly the guest view — the `latest`
snapshot under the standard read truncation — and that result is nonempty
whenever the `latest` snapshot is nonempty (it is empty when no snapshot
exists, contrary to the claim's unconditional "does not return an empty
list"). -/
theorem C10_guest_fallback (db : CityDb) (u : String) (hu : u ≠ "")
    (h : db.find u = none) :
    getUserCities db (some u) = getUserCities db none ∧
    (∀ l, db.latest = some l → l ≠ [] → getUserCities db (some u) ≠ []) := by
  have hraw : rawUserCities db (some u) = latestCities db := by
    simp [rawUserCities, hu, h]
  constructor
  · unfold getUserCities
    rw [hraw]
    rfl
  · intro l hl hne
    have hlen : 0 < l.length := List.length_pos.mpr hne
    have hlat : latestCities db = l := by simp [latestCities, hl]
    simp only [getUserCities, hraw, hlat]
    intro hcontra
    have hlen2 : ((lastN maxCitiesPerUser l).map truncateRead).length = 0 := by
      rw [hcontra]; rfl
    simp only [List.length_map, lastN, List.length_drop, maxCitiesPerUser] at hlen2
    omega

/-- Counterexample to C10 as stated: in a database with no `latest` snapshot
(e.g. a fresh install), an authenticated user with no entry receives the
empty list — contradicting "listCities(u) does not return an empty list". -/
theorem C10_counterexample : getUserCities exEmptyDb (some exUser) = [] := rfl

/-- Witness for C10 (amended): on a database whose `latest` snapshot is
`[exParis]`, the unknown authenticated user gets the guest view, which is
nonempty. -/
theorem C10_witness :
    getUserCities exDbLatestOnly (some exUser) = getUserCities exDbLatestOnly none ∧
    getUserCities exDbLatestOnly (some exUser) ≠ [] :=
  ⟨(C10_guest_fallback exDbLatestOnly exUser (by decide) (by rfl)).1,
   (C10_guest_fallback exDbLatestOnly exUser (by decide) (by rfl)).2
     [exParis] (by rfl) (by decide)⟩

end VitestDemo
